import Mathlib

/-!
Verification development for the headless-UI excerpt: the CSS-class transition
engine (`src/unnamed/part_000`, the file exporting `transition`) and the Dialog
state machine (`src/packages/@headlessui-vue/src/components/dialog/dialog.ts`).

The TypeScript is embedded shallowly: DOM class lists become `List String`
with `DOMTokenList` semantics, the single-threaded event loop that drives a
`transition()` call becomes an explicit step function over a small state
record, and the browser/test timing environment (animation frame,
`transitionend`, the test-mode timer) becomes an explicit event alphabet.
-/

namespace HeadlessUI

/-! ### DOMTokenList semantics

`node.classList.add(...cs)` appends each token that is not already present, in
argument order; `node.classList.remove(...cs)` deletes every occurrence of each
argument token. -/

def tokensAdd (l : List String) (cs : List String) : List String :=
  cs.foldl (fun acc c => if c ∈ acc then acc else acc ++ [c]) l

def tokensRemove (l : List String) (cs : List String) : List String :=
  l.filter (fun c => !decide (c ∈ cs))

/-! ### The transition engine's node and class-set data -/

/-- Slice of an `HTMLElement` the transition engine touches: its class
list, the `hidden` attribute and the inline `style.display` value. -/
structure NodeState where
  classes : List String
  hiddenAttr : Bool
  display : String
deriving DecidableEq, Repr

/-- Exceptions the engine can raise: dereferencing a `null` node. -/
inductive JsError
  | typeError
deriving DecidableEq, Repr

/-- Argument `classes` of `transition` (part_000, lines 62-70). -/
structure TransitionClasses where
  enter : List String
  enterFrom : List String
  enterTo : List String
  leave : List String
  leaveFrom : List String
  leaveTo : List String
  entered : List String
deriving DecidableEq, Repr

def classListAdd (n : NodeState) (cs : List String) : NodeState :=
  { n with classes := tokensAdd n.classes cs }

def classListRemove (n : NodeState) (cs : List String) : NodeState :=
  { n with classes := tokensRemove n.classes cs }

/-- Function `addClasses` (part_000, lines 5-7):
`node && classes.length > 0 && node.classList.add(...classes)`.
The conjunction short-circuits on a falsy node, so the `classList`
dereference (the only throwing subterm) is unreachable. -/
def addClasses (node : Option NodeState) (cs : List String) :
    Except JsError (Option NodeState) :=
  match node with
  | none => .ok none
  | some n => if 0 < cs.length then .ok (some (classListAdd n cs)) else .ok (some n)

/-- Function `removeClasses` (part_000, lines 9-11), same shape as
`addClasses`. -/
def removeClasses (node : Option NodeState) (cs : List String) :
    Except JsError (Option NodeState) :=
  match node with
  | none => .ok none
  | some n => if 0 < cs.length then .ok (some (classListRemove n cs)) else .ok (some n)

/-- Pure projection of `addClasses` (it always succeeds). -/
def addClassesP (node : Option NodeState) (cs : List String) : Option NodeState :=
  node.map (fun n => if 0 < cs.length then classListAdd n cs else n)

/-- Pure projection of `removeClasses` (it always succeeds). -/
def removeClassesP (node : Option NodeState) (cs : List String) : Option NodeState :=
  node.map (fun n => if 0 < cs.length then classListRemove n cs else n)

/-! ### Direction selection (part_000, lines 74, 87-98) -/

def baseOf (c : TransitionClasses) (showFlag : Bool) : List String :=
  if showFlag then c.enter else c.leave

def toOf (c : TransitionClasses) (showFlag : Bool) : List String :=
  if showFlag then c.enterTo else c.leaveTo

def fromOf (c : TransitionClasses) (showFlag : Bool) : List String :=
  if showFlag then c.enterFrom else c.leaveFrom

/-- Argument list of the big `removeClasses` call (part_000, lines 100-109),
in source order: enter, enterTo, enterFrom, leave, leaveFrom, leaveTo,
entered. -/
def allPhaseClasses (c : TransitionClasses) : List String :=
  c.enter ++ c.enterTo ++ c.enterFrom ++ c.leave ++ c.leaveFrom ++ c.leaveTo ++ c.entered

/-! ### Computed-style time resolution (waitForTransition, part_000 lines 18-33)

`getComputedStyle` values such as `"0.3s, 75ms"` are processed by
`value.split(',').filter(Boolean).map(v => v.includes('ms') ? parseFloat(v)
: parseFloat(v) * 1000).sort((a, z) => z - a)` and destructured as
`let [resolvedValue = 0] = ...`.  `parseFloat` is modelled on its JS
semantics for decimal notation (leading whitespace, optional sign, digits
with one optional point, trailing garbage ignored); CSS serializes `<time>`
values in plain decimal form, so the exponent forms are out of scope.
A token that `parseFloat` cannot parse is NaN in JS and makes the comparator
sort unspecified, so the model returns `none` there. -/

def dropWS : List Char → List Char
  | [] => []
  | c :: cs => if c = ' ' ∨ c = '\t' ∨ c = '\n' ∨ c = '\r' then dropWS cs else c :: cs

def takeDigits : List Char → List Nat × List Char
  | [] => ([], [])
  | c :: cs =>
    if c.isDigit then
      let p := takeDigits cs
      ((c.toNat - 48) :: p.1, p.2)
    else ([], c :: cs)

def digitsToNat (ds : List Nat) : Nat :=
  ds.foldl (fun acc d => 10 * acc + d) 0

def fracValue (ds : List Nat) : ℚ :=
  ds.foldr (fun d acc => ((d : ℚ) + acc) / 10) 0

def parseFloatQ (s : String) : Option ℚ :=
  let cs := dropWS s.toList
  let sp : ℚ × List Char :=
    match cs with
    | '-' :: rest => (-1, rest)
    | '+' :: rest => (1, rest)
    | _ => (1, cs)
  let ip := takeDigits sp.2
  let fracDs : List Nat :=
    match ip.2 with
    | '.' :: rest => (takeDigits rest).1
    | _ => []
  if ip.1 = [] ∧ fracDs = [] then none
  else some (sp.1 * ((digitsToNat ip.1 : ℚ) + fracValue fracDs))

/-- Substring search modelling `v.includes('ms')`. -/
def hasMsSub : List Char → Bool
  | 'm' :: 's' :: _ => true
  | _ :: rest => hasMsSub rest
  | [] => false

def containsMs (s : String) : Bool := hasMsSub s.toList

/-- One mapped item: `v.includes('ms') ? parseFloat(v) : parseFloat(v) * 1000`. -/
def cssValueToMs (v : String) : Option ℚ :=
  (parseFloatQ v).map (fun q => if containsMs v then q else q * 1000)

/-- Character-level split on every comma, keeping empty pieces, exactly as
JS `value.split(',')` does.  The result list is never empty. -/
def splitCommaChars : List Char → List (List Char)
  | [] => [[]]
  | c :: cs =>
    let rest := splitCommaChars cs
    if c = ',' then [] :: rest
    else
      match rest with
      | [] => [[c]]
      | r :: rs => (c :: r) :: rs

/-- Split step `value.split(',').filter(Boolean)`: only the empty string is
falsy. -/
def splitVals (s : String) : List String :=
  ((splitCommaChars s.toList).map (fun l => String.mk l)).filter (fun v => !decide (v = ""))

/-- Destructuring `let [resolvedValue = 0] = items.sort((a, z) => z - a)`:
the JS comparator sorts numerically descending; every sort consistent with it
has the same head, so it is modelled by insertion sort on `· ≥ ·`. -/
def resolvedValue (l : List ℚ) : ℚ :=
  (l.insertionSort (fun a b => a ≥ b)).headD 0

def resolveTimeValue (s : String) : Option ℚ :=
  let items := (splitVals s).map cssValueToMs
  if items.any (fun o => o.isNone) then none
  else some (resolvedValue (items.filterMap id))

/-- Sum `totalDuration = durationMs + delayMs` (part_000, line 33). -/
def totalDurationMs (dur delay : String) : Option ℚ :=
  match resolveTimeValue dur, resolveTimeValue delay with
  | some a, some b => some (a + b)
  | _, _ => none

/-! ### The transition() event machine (part_000, lines 13-58 and 60-125)

A `transition(node, classes, show, done)` call is single-threaded and
event-loop driven.  After the synchronous prefix (`transitionInit`), the run
is driven by the environment events: the animation frame registered with
`d.nextFrame`, the `transitionend` listener or test-mode timer registered by
`waitForTransition`, and invocations of the returned disposer `d.dispose`.
`_done = once(done)` is modelled by the `onceUsed` latch: `doneCount` counts
invocations of the caller-supplied completion callback. -/

/-- Branch selector for `process.env.NODE_ENV === 'test'` (line 36). -/
inductive Mode
  | test
  | browser
deriving DecidableEq, Repr

/-- What `waitForTransition`'s disposables currently hold. -/
inductive Waiter
  | noneW
  | timer
  | listener
deriving DecidableEq, Repr

structure TState where
  node : Option NodeState
  framePending : Bool
  outerDisposed : Bool
  waiter : Waiter
  doneCount : Nat
  onceUsed : Bool
deriving DecidableEq, Repr

/-- Environment events a live `transition()` call can receive. -/
inductive Ev
  | disposeOuter
  | frame
  | transitionEnd (targetIsSelf : Bool)
  | timerFire
deriving DecidableEq, Repr

/-- Synchronous body of `transition` (lines 74-110 plus registering the
`d.nextFrame` callback).  For `show = true` the code runs
`node.removeAttribute('hidden'); node.style.display = ''` before any null
guard, so a null node throws a TypeError there; the `leave` direction only
ever touches `node` through the guarded helpers. -/
def transitionInit (node : Option NodeState) (c : TransitionClasses) (showFlag : Bool) :
    Except JsError TState :=
  match showFlag, node with
  | true, none => .error .typeError
  | _, _ =>
    let node1 : Option NodeState :=
      if showFlag then node.map (fun n => { n with hiddenAttr := false, display := "" }) else node
    let node2 := removeClassesP node1 (allPhaseClasses c)
    let node3 := addClassesP node2 (baseOf c showFlag ++ fromOf c showFlag)
    .ok { node := node3, framePending := true, outerDisposed := false,
          waiter := .noneW, doneCount := 0, onceUsed := false }

/-- Body of `waitForTransition` (lines 13-58) with the computed total
(duration + delay, in ms) supplied: returns the registration it makes and
whether the completion callback ran synchronously (the `totalDuration === 0`
branch).  `transition` discards the disposer `waitForTransition` returns
(line 116), so the inner `d.add(() => done())` cleanup (line 55) is
unreachable and is not part of the reachable state. -/
def waitForTransitionReg (mode : Mode) (total : ℚ) (node : Option NodeState) :
    Waiter × Bool :=
  match node with
  | none => (.noneW, false)
  | some _ =>
    if total ≠ 0 then
      (match mode with
       | .test => .timer
       | .browser => .listener, false)
    else (.noneW, true)

/-- Completion closure handed to `waitForTransition` (lines 116-121):
`removeClasses(node, ...base); addClasses(node, ...classes.entered); _done()`
where `_done = once(done)`. -/
def innerDone (c : TransitionClasses) (showFlag : Bool) (s : TState) : TState :=
  { s with
    node := addClassesP (removeClassesP s.node (baseOf c showFlag)) c.entered,
    doneCount := if s.onceUsed then s.doneCount else s.doneCount + 1,
    onceUsed := true }

def step (mode : Mode) (total : ℚ) (c : TransitionClasses) (showFlag : Bool)
    (s : TState) (e : Ev) : TState :=
  match e with
  | .disposeOuter =>
    -- transition's own disposables hold only the nextFrame callback, so the
    -- returned disposer cancels a pending frame and nothing else.
    { s with outerDisposed := true, framePending := false }
  | .frame =>
    if s.framePending then
      -- lines 112-121: removeClasses(node, ...from); addClasses(node, ...to);
      -- then waitForTransition(node, doneClosure).
      let node1 := addClassesP (removeClassesP s.node (fromOf c showFlag)) (toOf c showFlag)
      let wr := waitForTransitionReg mode total node1
      let s1 := { s with framePending := false, node := node1, waiter := wr.1 }
      if wr.2 then innerDone c showFlag s1 else s1
    else s
  | .transitionEnd targetIsSelf =>
    -- lines 42-46: the listener ignores bubbled events and removes itself
    -- after firing; outer disposal does not remove it (the inner disposer
    -- was discarded), hence no outerDisposed guard here.
    match s.waiter, targetIsSelf with
    | .listener, true => { innerDone c showFlag s with waiter := .noneW }
    | _, _ => s
  | .timerFire =>
    -- lines 37-40: the test-mode timer, also unaffected by outer disposal.
    match s.waiter with
    | .timer => { innerDone c showFlag s with waiter := .noneW }
    | _ => s

def runEvents (mode : Mode) (total : ℚ) (c : TransitionClasses) (showFlag : Bool)
    (s : TState) (events : List Ev) : TState :=
  events.foldl (step mode total c showFlag) s

def nodeClasses (s : TState) : List String :=
  (s.node.map NodeState.classes).getD []

/-- Node value produced by the synchronous prefix of `transition` on a
non-null node. -/
def initNodeOf (n : NodeState) (c : TransitionClasses) (showFlag : Bool) : NodeState :=
  classListAdd
    (classListRemove
      (if showFlag then { n with hiddenAttr := false, display := "" } else n)
      (allPhaseClasses c))
    (baseOf c showFlag ++ fromOf c showFlag)

/-- Invariant carried by the `once` wrapper around the completion callback. -/
def OnceInv (s : TState) : Prop :=
  s.doneCount ≤ 1 ∧ (s.onceUsed = false → s.doneCount = 0)

/-- Invariant of a leave-direction run on a null node: nothing to mutate,
nothing registered, the callback never fires. -/
def NullNoOp (s : TState) : Prop :=
  s.node = none ∧ s.waiter = .noneW ∧ s.doneCount = 0

/-! ### Dialog state machine
(src/packages/@headlessui-vue/src/components/dialog/dialog.ts) -/

/-- States of `enum DialogStates` (dialog.ts 39-42). -/
inductive DialogStates
  | Open
  | Closed
deriving DecidableEq, Repr

/-- Computed `dialogState` (dialog.ts 128-130): `Closed` until the
`onMounted` hook has set `ready`, then it mirrors the resolved `open`
boolean. -/
def dialogState (ready openVal : Bool) : DialogStates :=
  if !ready then .Closed else if openVal then .Open else .Closed

/-- Computed `enabled` (dialog.ts 131). -/
def enabled (ready openVal : Bool) : Bool :=
  decide (dialogState ready openVal = DialogStates.Open)

/-- Computed `hasNestedDialogs` (dialog.ts 133): `nestedDialogCount.value > 1`
(the current dialog always counts as 1). -/
def hasNestedDialogs (count : ℤ) : Bool :=
  decide (1 < count)

/-- Computed `position` (dialog.ts 138):
`!hasNestedDialogs.value ? 'leaf' : 'parent'`. -/
def positionOf (count : ℤ) : String :=
  if !hasNestedDialogs count then "leaf" else "parent"

structure KeyEvent where
  key : String
  defaultPrevented : Bool
deriving DecidableEq, Repr

/-- Observable actions of the Escape keydown handler. -/
structure EscapeOutcome where
  preventedDefault : Bool
  stoppedPropagation : Bool
  closed : Bool
deriving DecidableEq, Repr

/-- Handler of `keydown` (dialog.ts 211-219), with its four early returns. -/
def escapeKeydown (st : DialogStates) (hasNested : Bool) (ev : KeyEvent) : EscapeOutcome :=
  if ev.defaultPrevented then ⟨false, false, false⟩
  else if ev.key ≠ "Escape" then ⟨false, false, false⟩
  else if st ≠ .Open then ⟨false, false, false⟩
  else if hasNested then ⟨false, false, false⟩
  else ⟨true, true, true⟩

/-- Enabled flag handed to `useOutsideClick` (dialog.ts 207):
`dialogState.value === DialogStates.Open && !hasNestedDialogs.value`.
The hook itself is an external collaborator that does nothing when this
computed flag is false. -/
def outsideClickEnabled (st : DialogStates) (hasNested : Bool) : Bool :=
  decide (st = DialogStates.Open) && !hasNested

/-- Values of the `open` prop: `{ type: [Boolean, String], default: Missing }`
(dialog.ts 78), where `Missing` is a sentinel string. -/
inductive OpenPropValue
  | missing
  | boolVal (b : Bool)
  | strVal (s : String)
deriving DecidableEq, Repr

/-- Ambient open/closed context `State` (internal/open-closed). -/
inductive OCState
  | stOpen
  | stClosed
deriving DecidableEq, Repr

/-- Computed `open` (dialog.ts 92-101): the ambient context is consulted
only when the prop is the `Missing` sentinel. -/
def resolveOpenValue (p : OpenPropValue) (ctx : Option OCState) : OpenPropValue :=
  match p, ctx with
  | .missing, some st =>
    .boolVal (match st with
              | .stOpen => true
              | .stClosed => false)
  | _, _ => p

inductive DialogSetupError
  | missingOpenProp
  | nonBooleanOpen
deriving DecidableEq, Repr

/-- Synchronous validations in `Dialog.setup` (dialog.ts 113-126):
`hasOpen = props.open !== Missing || usesOpenClosedState !== null`; throw when
`!hasOpen`, then throw when `typeof open.value !== 'boolean'`; otherwise
setup proceeds with the resolved boolean. -/
def validateDialogSetup (p : OpenPropValue) (ctx : Option OCState) :
    Except DialogSetupError Bool :=
  if p = .missing ∧ ctx = none then .error .missingOpenProp
  else
    match resolveOpenValue p ctx with
    | .boolVal b => .ok b
    | _ => .error .nonBooleanOpen

/-! ### Scroll lock (dialog.ts 222-329)

The watchEffect body is a (setup, cleanup-list) pair; `disposables().dispose()`
runs registered cleanups in reverse order.  The iOS click and touchmove
listeners (dialog.ts 264-299) are registered on the same disposable registry
but never write a style property, so they do not appear in the style state;
`scrollTo` traffic is kept as the `pageYOffset` field.  Layout reflow after a
style write is not modelled: the width fields are the values the two reads
observe.

Inline styles are modelled as declaration maps keyed by canonical
(hyphenated, lowercase) CSS property names.  The `style()` helper reads with
`node.style.getPropertyValue(property)` but writes with
`Object.assign(node.style, { [property]: value })`: per CSSOM the IDL-attribute
write sets the corresponding hyphenated property, while `getPropertyValue`
treats its argument as a CSS property name — a camelCase argument such as
`'paddingRight'` names no declared property and reads the empty string.  The
embedding keeps that asymmetry. -/

inductive StyleTarget
  | docEl
  | body
deriving DecidableEq, Repr

structure PageState where
  docStyle : String → String
  bodyStyle : String → String
  pageYOffset : ℤ
  innerWidth : ℤ
  docClientWidth : ℤ
  docOffsetWidth : ℤ
  iOS : Bool

abbrev Cleanup := PageState → PageState

/-- Hyphenation of a camelCase IDL attribute name into its canonical CSS
property name: each uppercase letter becomes a hyphen plus its lowercase
form (`paddingRight` becomes `padding-right`); hyphenated lowercase names
are unchanged. -/
def idlToCss (s : String) : String :=
  String.mk (s.toList.foldr
    (fun c acc => if c.isUpper then '-' :: c.toLower :: acc else c :: acc) [])

/-- CSSOM read `style.getPropertyValue(name)` against a declaration map:
the argument must itself be a canonical CSS property name, so a camelCase
argument — one that hyphenation would change — names no declared property
and reads the empty string. -/
def getPropertyValue (styles : String → String) (prop : String) : String :=
  if idlToCss prop = prop then styles prop else ""

/-- CSSOM write `Object.assign(node.style, { [name]: v })`: assigning the
IDL attribute sets the declaration of the corresponding hyphenated CSS
property. -/
def assignIdl (styles : String → String) (prop v : String) : String → String :=
  Function.update styles (idlToCss prop) v

/-- Raw declaration lookup at a canonical CSS property name: the observable
inline style. -/
def getStyleProp (p : PageState) : StyleTarget → String → String
  | .docEl, prop => p.docStyle prop
  | .body, prop => p.bodyStyle prop

/-- Read half of the `style()` helper: `node.style.getPropertyValue(property)`. -/
def styleRead (p : PageState) : StyleTarget → String → String
  | .docEl, prop => getPropertyValue p.docStyle prop
  | .body, prop => getPropertyValue p.bodyStyle prop

/-- Write half of the `style()` helper (and of its cleanup):
`Object.assign(node.style, { [property]: value })`. -/
def styleWrite (p : PageState) : StyleTarget → String → String → PageState
  | .docEl, prop, v => { p with docStyle := assignIdl p.docStyle prop v }
  | .body, prop, v => { p with bodyStyle := assignIdl p.bodyStyle prop v }

/-- Helper `style(node, property, value)` (dialog.ts 232-238): capture
`getPropertyValue(property)` — with the camelCase argument the source passes —
assign the new value through the IDL attribute, and register a cleanup that
assigns the captured value back the same way. -/
def stylePatch (tgt : StyleTarget) (prop value : String)
    (acc : PageState × List Cleanup) : PageState × List Cleanup :=
  let previous := styleRead acc.1 tgt prop
  (styleWrite acc.1 tgt prop value,
   acc.2 ++ [fun q => styleWrite q tgt prop previous])

/-- Body of the scroll-lock `watchEffect` (dialog.ts 222-329). -/
def scrollLockEffect (st : DialogStates) (hasParentDialog : Bool) (p : PageState) :
    PageState × List Cleanup :=
  if st ≠ .Open then (p, [])
  else if hasParentDialog then (p, [])
  else
    let scrollPosition := p.pageYOffset
    let scrollbarWidthBefore := p.innerWidth - p.docClientWidth
    let acc1 := stylePatch .docEl "overflow" "hidden" (p, [])
    let acc2 :=
      if 0 < scrollbarWidthBefore then
        let scrollbarWidthAfter := p.docClientWidth - p.docOffsetWidth
        let scrollbarWidth := scrollbarWidthBefore - scrollbarWidthAfter
        stylePatch .docEl "paddingRight" (toString scrollbarWidth ++ "px") acc1
      else acc1
    if p.iOS then
      let acc3 := stylePatch .body "marginTop" ("-" ++ toString scrollPosition ++ "px") acc2
      -- window.scrollTo(0, 0), then the scroll-restore cleanup (302-325)
      ({ acc3.1 with pageYOffset := 0 },
       acc3.2 ++ [fun q => { q with pageYOffset := q.pageYOffset + scrollPosition }])
    else acc2

/-- Disposal `disposables().dispose()`: run the registered cleanups in
reverse order. -/
def disposeCleanups (ds : List Cleanup) (p : PageState) : PageState :=
  ds.reverse.foldl (fun q f => f q) p

/-! ### The Dialog context API (dialog.ts 171-182) -/

/-- Per-instance state `close()` could conceivably touch, plus the host's
resolved `open` value and the emitted-event log. -/
structure DialogInstance where
  ready : Bool
  openVal : Bool
  titleId : Option String
  panelRef : Option String
  nestedDialogCount : ℤ
  scrollLocked : Bool
  emitted : List (String × Bool)
deriving DecidableEq, Repr

/-- Method `api.close()` (dialog.ts 179-181): `emit('close', false)` and
nothing else. -/
def dialogClose (s : DialogInstance) : DialogInstance :=
  { s with emitted := s.emitted ++ [("close", false)] }

/-- Host reaction to the event: updating the resolved `open` value. -/
def hostSetOpen (s : DialogInstance) (b : Bool) : DialogInstance :=
  { s with openVal := b }

def instanceDialogState (s : DialogInstance) : DialogStates :=
  dialogState s.ready s.openVal

/-! ## Lemmas -/

theorem mem_tokensAdd {t : String} {l cs : List String} :
    t ∈ tokensAdd l cs ↔ t ∈ l ∨ t ∈ cs := by
  induction cs generalizing l with
  | nil => simp [tokensAdd]
  | cons c cs ih =>
    show t ∈ tokensAdd (if c ∈ l then l else l ++ [c]) cs ↔ _
    rw [ih]
    by_cases hc : c ∈ l
    · simp only [if_pos hc, List.mem_cons]
      constructor
      · tauto
      · rintro (h | rfl | h)
        · tauto
        · exact Or.inl hc
        · tauto
    · simp [hc]
      tauto

theorem mem_tokensRemove {t : String} {l cs : List String} :
    t ∈ tokensRemove l cs ↔ t ∈ l ∧ t ∉ cs := by
  simp [tokensRemove]

theorem tokensAdd_nil (l : List String) : tokensAdd l [] = l := rfl

theorem tokensRemove_nil (l : List String) : tokensRemove l [] = l := by
  simp [tokensRemove]

theorem classListAdd_nil (n : NodeState) : classListAdd n [] = n := by
  cases n
  simp [classListAdd, tokensAdd_nil]

theorem classListRemove_nil (n : NodeState) : classListRemove n [] = n := by
  cases n
  simp [classListRemove, tokensRemove_nil]

theorem addClassesP_some (n : NodeState) (cs : List String) :
    addClassesP (some n) cs = some (classListAdd n cs) := by
  by_cases h : 0 < cs.length
  · simp [addClassesP, h]
  · have hnil : cs = [] := by cases cs <;> simp_all
    subst hnil
    simp [addClassesP, classListAdd_nil]

theorem removeClassesP_some (n : NodeState) (cs : List String) :
    removeClassesP (some n) cs = some (classListRemove n cs) := by
  by_cases h : 0 < cs.length
  · simp [removeClassesP, h]
  · have hnil : cs = [] := by cases cs <;> simp_all
    subst hnil
    simp [removeClassesP, classListRemove_nil]

theorem addClasses_eq_ok (node : Option NodeState) (cs : List String) :
    addClasses node cs = .ok (addClassesP node cs) := by
  cases node
  · rfl
  · simp only [addClasses, addClassesP, Option.map]
    split <;> rfl

theorem removeClasses_eq_ok (node : Option NodeState) (cs : List String) :
    removeClasses node cs = .ok (removeClassesP node cs) := by
  cases node
  · rfl
  · simp only [removeClasses, removeClassesP, Option.map]
    split <;> rfl

theorem resolvedValue_spec (l : List ℚ) :
    (l = [] ∧ resolvedValue l = 0) ∨
      (resolvedValue l ∈ l ∧ ∀ x ∈ l, x ≤ resolvedValue l) := by
  rcases eq_or_ne l [] with rfl | hne
  · left
    exact ⟨rfl, rfl⟩
  · right
    have hperm := List.perm_insertionSort (fun a b : ℚ => a ≥ b) l
    have hsorted := List.sorted_insertionSort (fun a b : ℚ => a ≥ b) l
    rcases hs : List.insertionSort (fun a b : ℚ => a ≥ b) l with _ | ⟨h, t⟩
    · rw [hs] at hperm
      exact absurd (hperm.symm.eq_nil) hne
    · rw [hs] at hperm hsorted
      have hmem : h ∈ l := hperm.mem_iff.mp (List.mem_cons_self h t)
      have hge : ∀ b ∈ t, h ≥ b := (List.sorted_cons.mp hsorted).1
      constructor
      · simpa [resolvedValue, hs] using hmem
      · intro x hx
        have hxht : x ∈ h :: t := hperm.mem_iff.mpr hx
        rw [List.mem_cons] at hxht
        rcases hxht with rfl | hxt
        · simp [resolvedValue, hs]
        · simpa [resolvedValue, hs] using hge x hxt

theorem resolveTimeValue_of_parsable {s : String}
    (h : ∀ v ∈ splitVals s, (cssValueToMs v).isSome) :
    resolveTimeValue s = some (resolvedValue ((splitVals s).filterMap cssValueToMs)) := by
  have hany : ((splitVals s).map cssValueToMs).any (fun o => o.isNone) = false := by
    rw [List.any_eq_false]
    intro o ho
    rw [List.mem_map] at ho
    obtain ⟨v, hv, rfl⟩ := ho
    have hsome := h v hv
    cases hcase : cssValueToMs v <;> simp_all
  rw [resolveTimeValue]
  simp only [hany, Bool.false_eq_true, if_false]
  congr 1
  rw [List.filterMap_map]
  rfl

theorem transitionInit_some (n : NodeState) (c : TransitionClasses) (showFlag : Bool) :
    transitionInit (some n) c showFlag =
      .ok { node := some (initNodeOf n c showFlag), framePending := true,
            outerDisposed := false, waiter := .noneW, doneCount := 0,
            onceUsed := false } := by
  cases showFlag <;>
    simp [transitionInit, initNodeOf, addClassesP_some, removeClassesP_some]

theorem transitionInit_start {node : Option NodeState} {c : TransitionClasses}
    {showFlag : Bool} {s0 : TState}
    (h : transitionInit node c showFlag = .ok s0) :
    s0.framePending = true ∧ s0.doneCount = 0 ∧ s0.onceUsed = false := by
  cases showFlag <;> cases node <;> simp [transitionInit] at h <;>
    rw [← h] <;> exact ⟨rfl, rfl, rfl⟩

theorem onceInv_innerDone {c : TransitionClasses} {showFlag : Bool} {s : TState}
    (h : OnceInv s) : OnceInv (innerDone c showFlag s) := by
  obtain ⟨h1, h2⟩ := h
  cases hu : s.onceUsed with
  | false =>
    have hz := h2 hu
    simp [OnceInv, innerDone, hu, hz]
  | true =>
    constructor
    · simpa [innerDone, hu] using h1
    · intro hfalse
      simp [innerDone] at hfalse

theorem onceInv_step {mode : Mode} {total : ℚ} {c : TransitionClasses}
    {showFlag : Bool} {s : TState} {e : Ev}
    (h : OnceInv s) : OnceInv (step mode total c showFlag s e) := by
  cases e with
  | disposeOuter => exact h
  | frame =>
    simp only [step]
    split
    · split
      · exact onceInv_innerDone ⟨h.1, h.2⟩
      · exact h
    · exact h
  | transitionEnd targetIsSelf =>
    simp only [step]
    split
    · have hh := @onceInv_innerDone c showFlag s h
      exact ⟨hh.1, hh.2⟩
    · exact h
  | timerFire =>
    simp only [step]
    split
    · have hh := @onceInv_innerDone c showFlag s h
      exact ⟨hh.1, hh.2⟩
    · exact h

theorem onceInv_run {mode : Mode} {total : ℚ} {c : TransitionClasses}
    {showFlag : Bool} {s : TState} (events : List Ev)
    (h : OnceInv s) : OnceInv (runEvents mode total c showFlag s events) := by
  induction events generalizing s with
  | nil => exact h
  | cons e es ih => exact ih (onceInv_step h)

theorem nullNoOp_step {mode : Mode} {total : ℚ} {c : TransitionClasses}
    {showFlag : Bool} {s : TState} {e : Ev}
    (h : NullNoOp s) : NullNoOp (step mode total c showFlag s e) := by
  obtain ⟨hn, hw, hd⟩ := h
  cases e with
  | disposeOuter => exact ⟨hn, hw, hd⟩
  | frame =>
    simp only [step]
    split
    · simp [hn, removeClassesP, addClassesP, waitForTransitionReg, NullNoOp, hd]
    · exact ⟨hn, hw, hd⟩
  | transitionEnd targetIsSelf =>
    simp only [step]
    split
    · simp_all
    · exact ⟨hn, hw, hd⟩
  | timerFire =>
    simp only [step]
    split
    · simp_all
    · exact ⟨hn, hw, hd⟩

theorem nullNoOp_run {mode : Mode} {total : ℚ} {c : TransitionClasses}
    {showFlag : Bool} {s : TState} (events : List Ev)
    (h : NullNoOp s) : NullNoOp (runEvents mode total c showFlag s events) := by
  induction events generalizing s with
  | nil => exact h
  | cons e es ih => exact ih (nullNoOp_step h)

/-- Run of the zero-total natural completion: the frame callback fires the
completion closure synchronously. -/
theorem run_frame_zero (mode : Mode) (c : TransitionClasses) (showFlag : Bool)
    (n : NodeState) :
    runEvents mode 0 c showFlag
        ⟨some n, true, false, .noneW, 0, false⟩ [Ev.frame] =
      ⟨some (classListAdd
              (classListRemove
                (classListAdd (classListRemove n (fromOf c showFlag)) (toOf c showFlag))
                (baseOf c showFlag))
              c.entered),
        false, false, .noneW, 1, true⟩ := by
  simp [runEvents, step, addClassesP_some, removeClassesP_some,
        waitForTransitionReg, innerDone]

/-- Run of the browser-mode natural completion with a declared transition:
frame, then the element's own transitionend. -/
theorem run_frame_transitionEnd {total : ℚ} (htot : total ≠ 0)
    (c : TransitionClasses) (showFlag : Bool) (n : NodeState) :
    runEvents .browser total c showFlag
        ⟨some n, true, false, .noneW, 0, false⟩ [Ev.frame, Ev.transitionEnd true] =
      ⟨some (classListAdd
              (classListRemove
                (classListAdd (classListRemove n (fromOf c showFlag)) (toOf c showFlag))
                (baseOf c showFlag))
              c.entered),
        false, false, .noneW, 1, true⟩ := by
  simp [runEvents, step, addClassesP_some, removeClassesP_some,
        waitForTransitionReg, innerDone, htot]

/-- Run of the test-mode natural completion with a declared transition:
frame, then the substituted timer. -/
theorem run_frame_timer {total : ℚ} (htot : total ≠ 0)
    (c : TransitionClasses) (showFlag : Bool) (n : NodeState) :
    runEvents .test total c showFlag
        ⟨some n, true, false, .noneW, 0, false⟩ [Ev.frame, Ev.timerFire] =
      ⟨some (classListAdd
              (classListRemove
                (classListAdd (classListRemove n (fromOf c showFlag)) (toOf c showFlag))
                (baseOf c showFlag))
              c.entered),
        false, false, .noneW, 1, true⟩ := by
  simp [runEvents, step, addClassesP_some, removeClassesP_some,
        waitForTransitionReg, innerDone, htot]

theorem positionOf_eq_leaf (count : ℤ) : positionOf count = "leaf" ↔ count ≤ 1 := by
  by_cases h : 1 < count
  · have h1 : positionOf count = "parent" := by
      simp [positionOf, hasNestedDialogs, h]
    rw [h1]
    constructor
    · intro hh
      exact absurd hh (by decide)
    · intro hh
      omega
  · have h1 : positionOf count = "leaf" := by
      simp [positionOf, hasNestedDialogs, h]
    rw [h1]
    simp only [true_iff]
    omega

theorem idlToCss_overflow : idlToCss "overflow" = "overflow" := by decide

theorem idlToCss_paddingRight : idlToCss "paddingRight" = "padding-right" := by decide

theorem idlToCss_marginTop : idlToCss "marginTop" = "margin-top" := by decide

theorem getStyleProp_styleWrite (p : PageState) (t t' : StyleTarget)
    (pr pr' v : String) :
    getStyleProp (styleWrite p t pr v) t' pr' =
      if t' = t ∧ pr' = idlToCss pr then v else getStyleProp p t' pr' := by
  cases t <;> cases t' <;>
    simp [getStyleProp, styleWrite, assignIdl, Function.update_apply]

theorem styleRead_overflow (p : PageState) (tgt : StyleTarget) :
    styleRead p tgt "overflow" = getStyleProp p tgt "overflow" := by
  cases tgt <;> simp [styleRead, getStyleProp, getPropertyValue, idlToCss_overflow]

theorem styleRead_paddingRight (p : PageState) (tgt : StyleTarget) :
    styleRead p tgt "paddingRight" = "" := by
  cases tgt <;> simp [styleRead, getPropertyValue, idlToCss_paddingRight]

theorem styleRead_marginTop (p : PageState) (tgt : StyleTarget) :
    styleRead p tgt "marginTop" = "" := by
  cases tgt <;> simp [styleRead, getPropertyValue, idlToCss_marginTop]

theorem getStyleProp_setPageY (q : PageState) (y : ℤ) (tgt : StyleTarget) (prop : String) :
    getStyleProp { q with pageYOffset := y } tgt prop = getStyleProp q tgt prop := by
  cases tgt <;> rfl

theorem resolvedValue_props (l : List ℚ) :
    (∀ x ∈ l, x ≤ resolvedValue l) ∧ (l = [] → resolvedValue l = 0)
      ∧ (l ≠ [] → resolvedValue l ∈ l) := by
  rcases resolvedValue_spec l with ⟨hnil, hz⟩ | ⟨hmem, hmax⟩
  · subst hnil
    exact ⟨by simp, fun _ => hz, fun hne => absurd rfl hne⟩
  · refine ⟨hmax, ?_, fun _ => hmem⟩
    intro hnil
    subst hnil
    cases hmem

/-- Membership in the class list after a completed run: starting from the
initialized node, the frame removes `from` and adds `to`, and the completion
closure removes `base` and adds `entered`. -/
theorem mem_finalChain (c : TransitionClasses) (showFlag : Bool) (n0 : NodeState)
    (t : String) :
    t ∈ (classListAdd
          (classListRemove
            (classListAdd (classListRemove (initNodeOf n0 c showFlag) (fromOf c showFlag))
              (toOf c showFlag))
            (baseOf c showFlag))
          c.entered).classes ↔
      (t ∈ c.entered ∨ (t ∈ toOf c showFlag ∧ t ∉ baseOf c showFlag)
        ∨ (t ∈ n0.classes ∧ t ∉ allPhaseClasses c)) := by
  cases showFlag <;>
    simp [initNodeOf, classListAdd, classListRemove, mem_tokensAdd, mem_tokensRemove,
          baseOf, toOf, fromOf, allPhaseClasses, List.mem_append] <;>
    tauto

/-! ## Claims -/

/-- C1 (amended): for every `transition(node, classes, show, done)` call with
a completion callback supplied, the callback is invoked at most once over any
sequence of environment events, and it is invoked exactly once when the
transition terminates by natural finish on a live node — zero computed
duration, or the element's own `transitionend` (browser mode), or the
substituted timer (test mode) — provided the disposer has not cancelled the
pending animation frame.  (The original claim's "never zero times" fails: the
returned disposer cancels the pending frame, and `transition` discards the
inner disposer that would have fired the callback.) -/
theorem C1_done_at_most_once (mode : Mode) (total : ℚ) (c : TransitionClasses)
    (showFlag : Bool) (node : Option NodeState) (s0 : TState) (events : List Ev)
    (h : transitionInit node c showFlag = .ok s0) :
    (runEvents mode total c showFlag s0 events).doneCount ≤ 1
    ∧ (∀ n, node = some n → total = 0 →
        (runEvents mode total c showFlag s0 [Ev.frame]).doneCount = 1)
    ∧ (∀ n, node = some n → total ≠ 0 →
        (runEvents .browser total c showFlag s0 [Ev.frame, Ev.transitionEnd true]).doneCount = 1)
    ∧ (∀ n, node = some n → total ≠ 0 →
        (runEvents .test total c showFlag s0 [Ev.frame, Ev.timerFire]).doneCount = 1) := by
  obtain ⟨hf, hd, hu⟩ := transitionInit_start h
  refine ⟨?_, ?_, ?_, ?_⟩
  · exact (onceInv_run events ⟨by omega, fun _ => hd⟩).1
  · rintro n rfl rfl
    rw [transitionInit_some] at h
    injection h with h'
    subst h'
    rw [run_frame_zero]
  · rintro n rfl htot
    rw [transitionInit_some] at h
    injection h with h'
    subst h'
    rw [run_frame_transitionEnd htot]
  · rintro n rfl htot
    rw [transitionInit_some] at h
    injection h with h'
    subst h'
    rw [run_frame_timer htot]

/-- Witness for C1 at a concrete input. -/
theorem C1_done_at_most_once_witness :
    (runEvents .browser 5 ⟨[], [], [], [], [], [], []⟩ true
        ⟨some ⟨[], false, ""⟩, true, false, .noneW, 0, false⟩
        [Ev.frame, Ev.transitionEnd true, Ev.transitionEnd true]).doneCount ≤ 1
    ∧ (runEvents .browser 5 ⟨[], [], [], [], [], [], []⟩ true
        ⟨some ⟨[], false, ""⟩, true, false, .noneW, 0, false⟩
        [Ev.frame, Ev.transitionEnd true]).doneCount = 1 := by
  have hh := C1_done_at_most_once .browser 5 ⟨[], [], [], [], [], [], []⟩ true
    (some ⟨[], false, ""⟩) ⟨some ⟨[], false, ""⟩, true, false, .noneW, 0, false⟩
    [Ev.frame, Ev.transitionEnd true, Ev.transitionEnd true] rfl
  exact ⟨hh.1, hh.2.2.1 ⟨[], false, ""⟩ rfl (by norm_num)⟩

/-- C1 counterexample: invoking the disposer before the first animation-frame
callback cancels the frame, and the completion callback is never invoked —
not even after the would-be natural-finish events — refuting "exactly once /
never zero times". -/
theorem C1_counterexample_disposed_before_frame :
    (transitionInit (some ⟨[], false, ""⟩) ⟨[], [], [], [], [], [], []⟩ true).map
        (fun s0 => (runEvents .browser 5 ⟨[], [], [], [], [], [], []⟩ true s0
          [Ev.disposeOuter, Ev.frame, Ev.transitionEnd true, Ev.timerFire]).doneCount)
      = .ok 0 := by
  rfl

/-- C2 (amended): after an enter transition on a live node fully completes
naturally (zero computed duration, or `transitionend` in browser mode), a
token is in the class list exactly when it is an `entered` token, an
`enterTo` token outside `enter`, or an initial token outside all seven class
sets; symmetrically for leave with `leaveTo`/`leave`.  (The original claim
fails: completion removes only the `base` classes, so `enterTo` and `leaveTo`
tokens remain, and `entered` is added in both directions.) -/
theorem C2_final_classes_characterization (c : TransitionClasses) (n0 : NodeState)
    (sE sL : TState)
    (hE : transitionInit (some n0) c true = .ok sE)
    (hL : transitionInit (some n0) c false = .ok sL) :
    (∀ t, t ∈ nodeClasses (runEvents .browser 0 c true sE [Ev.frame]) ↔
        (t ∈ c.entered ∨ (t ∈ c.enterTo ∧ t ∉ c.enter)
          ∨ (t ∈ n0.classes ∧ t ∉ allPhaseClasses c)))
    ∧ (∀ total : ℚ, total ≠ 0 → ∀ t,
        t ∈ nodeClasses (runEvents .browser total c true sE [Ev.frame, Ev.transitionEnd true]) ↔
        (t ∈ c.entered ∨ (t ∈ c.enterTo ∧ t ∉ c.enter)
          ∨ (t ∈ n0.classes ∧ t ∉ allPhaseClasses c)))
    ∧ (∀ t, t ∈ nodeClasses (runEvents .browser 0 c false sL [Ev.frame]) ↔
        (t ∈ c.entered ∨ (t ∈ c.leaveTo ∧ t ∉ c.leave)
          ∨ (t ∈ n0.classes ∧ t ∉ allPhaseClasses c)))
    ∧ (∀ total : ℚ, total ≠ 0 → ∀ t,
        t ∈ nodeClasses (runEvents .browser total c false sL [Ev.frame, Ev.transitionEnd true]) ↔
        (t ∈ c.entered ∨ (t ∈ c.leaveTo ∧ t ∉ c.leave)
          ∨ (t ∈ n0.classes ∧ t ∉ allPhaseClasses c))) := by
  rw [transitionInit_some] at hE hL
  injection hE with hE'
  injection hL with hL'
  subst hE'
  subst hL'
  refine ⟨?_, ?_, ?_, ?_⟩
  · intro t
    rw [run_frame_zero]
    simpa [nodeClasses, toOf, baseOf] using mem_finalChain c true n0 t
  · intro total htot t
    rw [run_frame_transitionEnd htot]
    simpa [nodeClasses, toOf, baseOf] using mem_finalChain c true n0 t
  · intro t
    rw [run_frame_zero]
    simpa [nodeClasses, toOf, baseOf] using mem_finalChain c false n0 t
  · intro total htot t
    rw [run_frame_transitionEnd htot]
    simpa [nodeClasses, toOf, baseOf] using mem_finalChain c false n0 t

/-- Witness for C2 at a concrete input. -/
theorem C2_final_classes_characterization_witness :
    ("a" ∈ nodeClasses (runEvents .browser 0 ⟨["e"], [], ["a"], [], [], [], []⟩ true
        ⟨some ⟨["e"], false, ""⟩, true, false, .noneW, 0, false⟩ [Ev.frame]) ↔
      ("a" ∈ ([] : List String)
        ∨ ("a" ∈ ["a"] ∧ "a" ∉ ["e"])
        ∨ ("a" ∈ ([] : List String)
            ∧ "a" ∉ allPhaseClasses ⟨["e"], [], ["a"], [], [], [], []⟩))) :=
  (C2_final_classes_characterization ⟨["e"], [], ["a"], [], [], [], []⟩ ⟨[], false, ""⟩
      ⟨some ⟨["e"], false, ""⟩, true, false, .noneW, 0, false⟩
      ⟨some ⟨[], false, ""⟩, true, false, .noneW, 0, false⟩ rfl rfl).1 "a"

/-- C2 counterexample: with `enterTo = ["a"]` and every other set empty, a
naturally completed enter transition leaves the class list at `["a"]` — an
`enterTo` token remains, refuting "contains none of the enterTo tokens". -/
theorem C2_counterexample_enterTo_remains :
    (transitionInit (some ⟨[], false, ""⟩) ⟨[], [], ["a"], [], [], [], []⟩ true).map
        (fun s0 => nodeClasses (runEvents .browser 0 ⟨[], [], ["a"], [], [], [], []⟩ true s0
          [Ev.frame]))
      = .ok ["a"]
    ∧ "a" ∈ TransitionClasses.enterTo ⟨[], [], ["a"], [], [], [], []⟩ := by
  constructor
  · rfl
  · simp

/-- C3 (confirmed): a Dialog with neither an explicit `open` prop nor an
ambient open/closed context throws synchronously at setup; a resolved
non-boolean `open` also throws; a boolean `open` prop, or an absent prop with
an ambient context, never throws at setup. -/
theorem C3_setup_validation (p : OpenPropValue) (ctx : Option OCState) (b : Bool) :
    validateDialogSetup .missing none = .error .missingOpenProp
    ∧ ((∀ b', resolveOpenValue p ctx ≠ .boolVal b') →
        ∃ e, validateDialogSetup p ctx = .error e)
    ∧ validateDialogSetup (.boolVal b) ctx = .ok b
    ∧ (∀ st, ∃ b', validateDialogSetup .missing (some st) = .ok b') := by
  refine ⟨rfl, ?_, ?_, ?_⟩
  · intro hnb
    by_cases hc : p = .missing ∧ ctx = none
    · exact ⟨.missingOpenProp, by simp [validateDialogSetup, hc.1, hc.2]⟩
    · rcases hr : resolveOpenValue p ctx with _ | b' | sv
      · exact ⟨.nonBooleanOpen, by simp [validateDialogSetup, hc, hr]⟩
      · exact absurd hr (hnb b')
      · exact ⟨.nonBooleanOpen, by simp [validateDialogSetup, hc, hr]⟩
  · cases ctx <;> simp [validateDialogSetup, resolveOpenValue]
  · intro st
    cases st
    · exact ⟨true, rfl⟩
    · exact ⟨false, rfl⟩

/-- Witness for C3 at a concrete input. -/
theorem C3_setup_validation_witness :
    validateDialogSetup .missing none = .error .missingOpenProp
    ∧ (∃ e, validateDialogSetup (.strVal "yes") none = .error e)
    ∧ validateDialogSetup (.boolVal true) none = .ok true :=
  have hh := C3_setup_validation (.strVal "yes") none true
  ⟨hh.1, hh.2.1 (fun b' h => by cases h), hh.2.2.1⟩

/-- C4 (confirmed): before the first mount has completed, `dialogState` is
`Closed` whatever the resolved `open` value is; after first mount it is
`Open` exactly when `open` is true; `enabled` is true exactly when
`dialogState` is `Open`. -/
theorem C4_dialog_state_derivation (ready openVal : Bool) :
    dialogState false openVal = DialogStates.Closed
    ∧ (dialogState true openVal = DialogStates.Open ↔ openVal = true)
    ∧ (enabled ready openVal = true ↔ dialogState ready openVal = DialogStates.Open) := by
  refine ⟨rfl, ?_, ?_⟩
  · cases openVal <;> simp [dialogState]
  · simp [enabled]

/-- Witness for C4 at a concrete input. -/
theorem C4_dialog_state_derivation_witness :
    dialogState false true = DialogStates.Closed
    ∧ (dialogState true true = DialogStates.Open ↔ true = true)
    ∧ (enabled true true = true ↔ dialogState true true = DialogStates.Open) :=
  C4_dialog_state_derivation true true

/-- C5 (confirmed): `position` is `'leaf'` exactly when the nested-dialog
count is at most 1; the Escape keydown handler acts (preventDefault,
stopPropagation, close — all together, or not at all) exactly when the event
is an unhandled Escape and the dialog is open and leaf; the outside-click
enabled flag is set exactly when the dialog is open and leaf. -/
theorem C5_leaf_gating (count : ℤ) (st : DialogStates) (ev : KeyEvent) :
    (positionOf count = "leaf" ↔ count ≤ 1)
    ∧ (escapeKeydown st (hasNestedDialogs count) ev ≠ ⟨false, false, false⟩ ↔
        (st = DialogStates.Open ∧ positionOf count = "leaf"
          ∧ ev.key = "Escape" ∧ ev.defaultPrevented = false))
    ∧ (escapeKeydown st (hasNestedDialogs count) ev = ⟨false, false, false⟩
        ∨ escapeKeydown st (hasNestedDialogs count) ev = ⟨true, true, true⟩)
    ∧ (outsideClickEnabled st (hasNestedDialogs count) = true ↔
        (st = DialogStates.Open ∧ positionOf count = "leaf")) := by
  obtain ⟨k, dp⟩ := ev
  refine ⟨positionOf_eq_leaf count, ?_, ?_, ?_⟩
  · by_cases hk : k = "Escape" <;> cases dp <;> cases st <;>
      by_cases h : (1 : ℤ) < count <;>
      simp [escapeKeydown, hasNestedDialogs, positionOf_eq_leaf, hk, h] <;>
      omega
  · by_cases hk : k = "Escape" <;> cases dp <;> cases st <;>
      by_cases h : (1 : ℤ) < count <;>
      simp [escapeKeydown, hasNestedDialogs, hk, h]
  · cases st <;> by_cases h : (1 : ℤ) < count <;>
      simp [outsideClickEnabled, hasNestedDialogs, positionOf_eq_leaf, h] <;>
      omega

/-- Witness for C5 at a concrete input. -/
theorem C5_leaf_gating_witness :
    (positionOf 1 = "leaf" ↔ (1 : ℤ) ≤ 1)
    ∧ (escapeKeydown DialogStates.Open (hasNestedDialogs 1) ⟨"Escape", false⟩
          ≠ ⟨false, false, false⟩ ↔
        (DialogStates.Open = DialogStates.Open ∧ positionOf 1 = "leaf"
          ∧ "Escape" = "Escape" ∧ false = false))
    ∧ (escapeKeydown DialogStates.Open (hasNestedDialogs 1) ⟨"Escape", false⟩
          = ⟨false, false, false⟩
        ∨ escapeKeydown DialogStates.Open (hasNestedDialogs 1) ⟨"Escape", false⟩
          = ⟨true, true, true⟩)
    ∧ (outsideClickEnabled DialogStates.Open (hasNestedDialogs 1) = true ↔
        (DialogStates.Open = DialogStates.Open ∧ positionOf 1 = "leaf")) :=
  C5_leaf_gating 1 DialogStates.Open ⟨"Escape", false⟩

/-- C6 (amended): the outermost open Dialog's scroll lock sets the document
root's overflow declaration to hidden and, exactly when a scrollbar was
present, patches the padding-right declaration (the camelCase IDL write does
set the hyphenated property).  On disposal every patched property is written
back: overflow is restored to exactly its prior value (the empty string when
previously unset), but the previous values captured for `paddingRight` and
`marginTop` come from `getPropertyValue` with a camelCase argument, which
names no declared property and reads "", so padding-right (when a scrollbar
was present) and margin-top (on iOS) are reset to the empty string —
restored exactly only when previously unset; no style property other than
those patched is changed. -/
theorem C6_scroll_lock_patch_and_unlock (p : PageState) :
    getStyleProp (scrollLockEffect .Open false p).1 .docEl "overflow" = "hidden"
    ∧ getStyleProp (scrollLockEffect .Open false p).1 .docEl "padding-right" =
        (if 0 < p.innerWidth - p.docClientWidth then
          toString (p.innerWidth - p.docClientWidth - (p.docClientWidth - p.docOffsetWidth))
            ++ "px"
         else getStyleProp p .docEl "padding-right")
    ∧ getStyleProp (disposeCleanups (scrollLockEffect .Open false p).2
        (scrollLockEffect .Open false p).1) .docEl "overflow" =
        getStyleProp p .docEl "overflow"
    ∧ getStyleProp (disposeCleanups (scrollLockEffect .Open false p).2
        (scrollLockEffect .Open false p).1) .docEl "padding-right" =
        (if 0 < p.innerWidth - p.docClientWidth then ""
         else getStyleProp p .docEl "padding-right")
    ∧ getStyleProp (disposeCleanups (scrollLockEffect .Open false p).2
        (scrollLockEffect .Open false p).1) .body "margin-top" =
        (if p.iOS = true then "" else getStyleProp p .body "margin-top")
    ∧ (∀ tgt prop, ¬(tgt = StyleTarget.docEl ∧ prop = "padding-right") →
        ¬(tgt = StyleTarget.body ∧ prop = "margin-top") →
        getStyleProp (disposeCleanups (scrollLockEffect .Open false p).2
          (scrollLockEffect .Open false p).1) tgt prop = getStyleProp p tgt prop) := by
  refine ⟨?_, ?_, ?_, ?_, ?_, ?_⟩
  · by_cases hsb : 0 < p.innerWidth - p.docClientWidth <;>
      cases hios : p.iOS <;>
      simp [scrollLockEffect, stylePatch, hsb, hios, getStyleProp_styleWrite,
            getStyleProp_setPageY, styleRead_overflow, styleRead_paddingRight,
            styleRead_marginTop, idlToCss_overflow, idlToCss_paddingRight,
            idlToCss_marginTop]
  · by_cases hsb : 0 < p.innerWidth - p.docClientWidth <;>
      cases hios : p.iOS <;>
      simp [scrollLockEffect, stylePatch, hsb, hios, getStyleProp_styleWrite,
            getStyleProp_setPageY, styleRead_overflow, styleRead_paddingRight,
            styleRead_marginTop, idlToCss_overflow, idlToCss_paddingRight,
            idlToCss_marginTop]
  · by_cases hsb : 0 < p.innerWidth - p.docClientWidth <;>
      cases hios : p.iOS <;>
      simp [scrollLockEffect, stylePatch, hsb, hios, disposeCleanups,
            getStyleProp_styleWrite, getStyleProp_setPageY, styleRead_overflow,
            styleRead_paddingRight, styleRead_marginTop, idlToCss_overflow,
            idlToCss_paddingRight, idlToCss_marginTop]
  · by_cases hsb : 0 < p.innerWidth - p.docClientWidth <;>
      cases hios : p.iOS <;>
      simp [scrollLockEffect, stylePatch, hsb, hios, disposeCleanups,
            getStyleProp_styleWrite, getStyleProp_setPageY, styleRead_overflow,
            styleRead_paddingRight, styleRead_marginTop, idlToCss_overflow,
            idlToCss_paddingRight, idlToCss_marginTop]
  · by_cases hsb : 0 < p.innerWidth - p.docClientWidth <;>
      cases hios : p.iOS <;>
      simp [scrollLockEffect, stylePatch, hsb, hios, disposeCleanups,
            getStyleProp_styleWrite, getStyleProp_setPageY, styleRead_overflow,
            styleRead_paddingRight, styleRead_marginTop, idlToCss_overflow,
            idlToCss_paddingRight, idlToCss_marginTop]
  · intro tgt prop h1 h2
    by_cases hsb : 0 < p.innerWidth - p.docClientWidth <;>
      cases hios : p.iOS <;>
      simp [scrollLockEffect, stylePatch, hsb, hios, disposeCleanups,
            getStyleProp_styleWrite, getStyleProp_setPageY, styleRead_overflow,
            styleRead_paddingRight, styleRead_marginTop, idlToCss_overflow,
            idlToCss_paddingRight, idlToCss_marginTop] <;>
      split_ifs <;> simp_all

/-- Witness for C6 at a concrete input. -/
theorem C6_scroll_lock_patch_and_unlock_witness :
    getStyleProp (scrollLockEffect .Open false
        ⟨fun _ => "", fun _ => "", 40, 800, 780, 780, false⟩).1 .docEl "overflow" = "hidden"
    ∧ getStyleProp (disposeCleanups (scrollLockEffect .Open false
          ⟨fun _ => "", fun _ => "", 40, 800, 780, 780, false⟩).2
        (scrollLockEffect .Open false
          ⟨fun _ => "", fun _ => "", 40, 800, 780, 780, false⟩).1) .docEl "overflow" =
        getStyleProp ⟨fun _ => "", fun _ => "", 40, 800, 780, 780, false⟩ .docEl "overflow" :=
  have hh := C6_scroll_lock_patch_and_unlock
    ⟨fun _ => "", fun _ => "", 40, 800, 780, 780, false⟩
  ⟨hh.1, hh.2.2.2.2.2 .docEl "overflow" (by simp) (by simp)⟩

/-- C6 counterexample: with an inline `padding-right: 5px` already set on the
document root and a scrollbar present, locking and then disposing writes
padding-right back to the empty string — the captured previous value was read
through `getPropertyValue('paddingRight')`, which names no declared
property — so the pre-lock value is not restored. -/
theorem C6_counterexample_paddingRight_cleared :
    getStyleProp (disposeCleanups
        (scrollLockEffect .Open false
          ⟨fun k => if k = "padding-right" then "5px" else "", fun _ => "",
            0, 800, 780, 780, false⟩).2
        (scrollLockEffect .Open false
          ⟨fun k => if k = "padding-right" then "5px" else "", fun _ => "",
            0, 800, 780, 780, false⟩).1) .docEl "padding-right" = ""
    ∧ getStyleProp
        ⟨fun k => if k = "padding-right" then "5px" else "", fun _ => "",
          0, 800, 780, 780, false⟩ .docEl "padding-right" = "5px"
    ∧ ("" : String) ≠ "5px" := by
  refine ⟨?_, by decide, by decide⟩
  rfl

/-- C7 (confirmed): when the computed transition-duration and
transition-delay sum to 0, the completion callback fires inside the
animation-frame callback itself — no `transitionend` listener or timer is
registered and no further event is needed — as an immediate-completion fast
path, not an error. -/
theorem C7_zero_duration_fast_path (mode : Mode) (c : TransitionClasses)
    (showFlag : Bool) (n : NodeState) (s0 : TState)
    (h : transitionInit (some n) c showFlag = .ok s0) :
    (runEvents mode 0 c showFlag s0 [Ev.frame]).doneCount = 1
    ∧ (runEvents mode 0 c showFlag s0 [Ev.frame]).waiter = .noneW
    ∧ (runEvents mode 0 c showFlag s0 [Ev.frame]).framePending = false := by
  rw [transitionInit_some] at h
  injection h with h'
  subst h'
  rw [run_frame_zero]
  exact ⟨rfl, rfl, rfl⟩

/-- Witness for C7 at a concrete input. -/
theorem C7_zero_duration_fast_path_witness :
    (runEvents .browser 0 ⟨[], [], [], [], [], [], []⟩ true
        ⟨some ⟨[], false, ""⟩, true, false, .noneW, 0, false⟩ [Ev.frame]).doneCount = 1
    ∧ (runEvents .browser 0 ⟨[], [], [], [], [], [], []⟩ true
        ⟨some ⟨[], false, ""⟩, true, false, .noneW, 0, false⟩ [Ev.frame]).waiter = .noneW
    ∧ (runEvents .browser 0 ⟨[], [], [], [], [], [], []⟩ true
        ⟨some ⟨[], false, ""⟩, true, false, .noneW, 0, false⟩ [Ev.frame]).framePending
        = false :=
  C7_zero_duration_fast_path .browser ⟨[], [], [], [], [], [], []⟩ true ⟨[], false, ""⟩
    ⟨some ⟨[], false, ""⟩, true, false, .noneW, 0, false⟩ rfl

/-- C8 (confirmed): for computed transition-duration and transition-delay
strings whose comma-separated items each parse as CSS time values, the
resolution picks the numerically largest converted value per property
(seconds multiplied by 1000), resolves an empty list to 0, and the total
wait is the sum of the two resolved values. -/
theorem C8_duration_resolution (dur delay : String)
    (hd : ∀ v ∈ splitVals dur, (cssValueToMs v).isSome)
    (hy : ∀ v ∈ splitVals delay, (cssValueToMs v).isSome) :
    resolveTimeValue dur = some (resolvedValue ((splitVals dur).filterMap cssValueToMs))
    ∧ resolveTimeValue delay = some (resolvedValue ((splitVals delay).filterMap cssValueToMs))
    ∧ totalDurationMs dur delay =
        some (resolvedValue ((splitVals dur).filterMap cssValueToMs)
          + resolvedValue ((splitVals delay).filterMap cssValueToMs))
    ∧ (∀ x ∈ (splitVals dur).filterMap cssValueToMs,
        x ≤ resolvedValue ((splitVals dur).filterMap cssValueToMs))
    ∧ ((splitVals dur).filterMap cssValueToMs = [] →
        resolvedValue ((splitVals dur).filterMap cssValueToMs) = 0)
    ∧ ((splitVals dur).filterMap cssValueToMs ≠ [] →
        resolvedValue ((splitVals dur).filterMap cssValueToMs)
          ∈ (splitVals dur).filterMap cssValueToMs)
    ∧ (∀ x ∈ (splitVals delay).filterMap cssValueToMs,
        x ≤ resolvedValue ((splitVals delay).filterMap cssValueToMs))
    ∧ ((splitVals delay).filterMap cssValueToMs = [] →
        resolvedValue ((splitVals delay).filterMap cssValueToMs) = 0)
    ∧ ((splitVals delay).filterMap cssValueToMs ≠ [] →
        resolvedValue ((splitVals delay).filterMap cssValueToMs)
          ∈ (splitVals delay).filterMap cssValueToMs) := by
  have h1 := resolveTimeValue_of_parsable hd
  have h2 := resolveTimeValue_of_parsable hy
  have p1 := resolvedValue_props ((splitVals dur).filterMap cssValueToMs)
  have p2 := resolvedValue_props ((splitVals delay).filterMap cssValueToMs)
  refine ⟨h1, h2, ?_, p1.1, p1.2.1, p1.2.2, p2.1, p2.2.1, p2.2.2⟩
  rw [totalDurationMs, h1, h2]

/-- Witness for C8 at a concrete input: Safari-style comma-separated values,
seconds converted to milliseconds, largest picked, then summed. -/
theorem C8_duration_resolution_witness :
    totalDurationMs "0.3s, 75ms" "50ms" =
      some (resolvedValue ((splitVals "0.3s, 75ms").filterMap cssValueToMs)
        + resolvedValue ((splitVals "50ms").filterMap cssValueToMs))
    ∧ splitVals "0.3s, 75ms" = ["0.3s", " 75ms"] :=
  ⟨(C8_duration_resolution "0.3s, 75ms" "50ms" (by decide) (by decide)).2.2.1,
   by decide⟩

/-- C9 (amended): the class-mutation helpers never throw — on any node
(including a missing one) and any class list (including the empty one) they
return normally — and a leave-direction `transition()` on a null node returns
a no-op disposer without throwing: over any event sequence the completion
callback never fires and the node stays absent.  (The original claim's "both
directions" fails: the enter direction dereferences the null node to clear
the hidden state before any guard.) -/
theorem C9_null_node_safety (c : TransitionClasses) (cs : List String)
    (node : Option NodeState) (mode : Mode) (total : ℚ) (events : List Ev) :
    addClasses node cs = .ok (addClassesP node cs)
    ∧ removeClasses node cs = .ok (removeClassesP node cs)
    ∧ addClasses none cs = .ok none
    ∧ removeClasses none cs = .ok none
    ∧ transitionInit none c false = .ok ⟨none, true, false, .noneW, 0, false⟩
    ∧ (runEvents mode total c false
        ⟨none, true, false, .noneW, 0, false⟩ events).doneCount = 0
    ∧ (runEvents mode total c false
        ⟨none, true, false, .noneW, 0, false⟩ events).node = none := by
  have hrun := @nullNoOp_run mode total c false
    ⟨none, true, false, .noneW, 0, false⟩ events ⟨rfl, rfl, rfl⟩
  exact ⟨addClasses_eq_ok node cs, removeClasses_eq_ok node cs, rfl, rfl, rfl,
         hrun.2.2, hrun.1⟩

/-- C9 counterexample: `transition(null, classes, true)` throws a TypeError —
the enter branch runs `node.removeAttribute('hidden')` before any null
guard — refuting the claimed no-throw short-circuit for the enter
direction. -/
theorem C9_counterexample_enter_null_throws :
    transitionInit none ⟨["e"], [], [], [], [], [], []⟩ true = .error .typeError := by
  rfl

/-- C10 (confirmed): the context's `close()` only appends a `close` event
with payload `false` to the emitted log; `titleId`, `panelRef`, the
nested-dialog count, the scroll-lock state, the resolved `open` value and
the derived `dialogState` are all unchanged, and the dialog reaches `Closed`
only when the host subsequently sets the resolved `open` value to false. -/
theorem C10_close_only_emits (s : DialogInstance) :
    (dialogClose s).emitted = s.emitted ++ [("close", false)]
    ∧ (dialogClose s).titleId = s.titleId
    ∧ (dialogClose s).panelRef = s.panelRef
    ∧ (dialogClose s).nestedDialogCount = s.nestedDialogCount
    ∧ (dialogClose s).scrollLocked = s.scrollLocked
    ∧ (dialogClose s).ready = s.ready
    ∧ (dialogClose s).openVal = s.openVal
    ∧ instanceDialogState (dialogClose s) = instanceDialogState s
    ∧ instanceDialogState (hostSetOpen s false) = DialogStates.Closed := by
  refine ⟨rfl, rfl, rfl, rfl, rfl, rfl, rfl, rfl, ?_⟩
  cases hr : s.ready <;> simp [instanceDialogState, hostSetOpen, dialogState, hr]

/-- Witness for C10 at a concrete input. -/
theorem C10_close_only_emits_witness :
    (dialogClose ⟨true, true, some "t", none, 1, true, []⟩).emitted =
        ([] : List (String × Bool)) ++ [("close", false)]
    ∧ (dialogClose ⟨true, true, some "t", none, 1, true, []⟩).titleId = some "t"
    ∧ instanceDialogState (hostSetOpen ⟨true, true, some "t", none, 1, true, []⟩ false) =
        DialogStates.Closed :=
  have hh := C10_close_only_emits ⟨true, true, some "t", none, 1, true, []⟩
  ⟨hh.1, hh.2.1, hh.2.2.2.2.2.2.2.2⟩

end HeadlessUI
